import Mathlib

/-!
Verification development for `renderdoc/driver/gl/gl_shader_refl.cpp`.

Two components of that file are modelled by a shallow embedding and verified:

* `ReconstructVarTree` (lines 398–754) together with the recursive `sort`
  (lines 68–82) and the driving loop of `MakeShaderReflection`
  (lines 1421–1460): flat GL program-interface variable records are parsed
  into a nested `DynShaderConstant` tree.
* `DisassembleSPIRV` (lines 2105–2220): a two-pass textual disassembler for
  a SPIR-V word stream.

Machine integers of the source (`GLint`, `uint32_t`, `uint16_t`) are modelled
as `Int`/`Nat` with explicit wrap-around noted where it matters; fallible
steps return `Option`. String formatting (`StringFormat::Fmt`) is out of
scope: output lines are modelled structurally, carrying the values the
source would format.
-/

namespace GLRefl

/-- `VarType` (`eVar_Float`, `eVar_Double`, `eVar_Int`, `eVar_UInt`), the
numeric base-type classification used by `ReconstructVarTree`. -/
inductive VarType where
  | varFloat | varDouble | varInt | varUInt
  deriving DecidableEq, Repr

/-- The GL type enumeration values inspected by the switches of
`ReconstructVarTree` (lines 421–603).  `other` stands for every value that
hits a `default:` label there (samplers, images, atomics, …); only equality
with the listed labels is ever tested, so the numeric enum values are
irrelevant. -/
inductive GLTypeEnum where
  | floatVec4 | floatVec3 | floatVec2 | float
  | floatMat4 | floatMat3 | floatMat2
  | floatMat4x2 | floatMat4x3 | floatMat3x4 | floatMat3x2 | floatMat2x4 | floatMat2x3
  | doubleVec4 | doubleVec3 | doubleVec2 | double
  | doubleMat4 | doubleMat3 | doubleMat2
  | doubleMat4x2 | doubleMat4x3 | doubleMat3x4 | doubleMat3x2 | doubleMat2x4 | doubleMat2x3
  | uintVec4 | uintVec3 | uintVec2 | uint
  | boolVec4 | boolVec3 | boolVec2 | bool
  | intVec4 | intVec3 | intVec2 | int
  | other
  deriving DecidableEq, Repr

/-- The type classifier: the `switch(values[0])` at lines 421–472.  `none`
is the `default:` arm (`// not a variable (sampler etc)` followed by
`return;`), which makes the whole record be silently skipped. -/
def classifyVarType : GLTypeEnum → Option VarType
  | .floatVec4 | .floatVec3 | .floatVec2 | .float
  | .floatMat4 | .floatMat3 | .floatMat2
  | .floatMat4x2 | .floatMat4x3 | .floatMat3x4
  | .floatMat3x2 | .floatMat2x4 | .floatMat2x3 => some .varFloat
  | .doubleVec4 | .doubleVec3 | .doubleVec2 | .double
  | .doubleMat4 | .doubleMat3 | .doubleMat2
  | .doubleMat4x2 | .doubleMat4x3 | .doubleMat3x4
  | .doubleMat3x2 | .doubleMat2x4 | .doubleMat2x3 => some .varDouble
  | .uintVec4 | .uintVec3 | .uintVec2 | .uint
  | .boolVec4 | .boolVec3 | .boolVec2 | .bool => some .varUInt
  | .intVec4 | .intVec3 | .intVec2 | .int => some .varInt
  | .other => none

/-- Row count: the `switch(values[0])` at lines 477–505 (initialised to 1 at
line 475, the `default:` arm leaves that). -/
def typeRows : GLTypeEnum → Nat
  | .floatMat4 | .doubleMat4 | .floatMat2x4 | .doubleMat2x4
  | .floatMat3x4 | .doubleMat3x4 => 4
  | .floatMat3 | .doubleMat3 | .floatMat4x3 | .doubleMat4x3
  | .floatMat2x3 | .doubleMat2x3 => 3
  | .floatMat2 | .doubleMat2 | .floatMat4x2 | .doubleMat4x2
  | .floatMat3x2 | .doubleMat3x2 => 2
  | _ => 1

/-- Column count: the `switch(values[0])` at lines 508–558.  The `default:`
arm is reached only for `other`, which the classifier has already rejected;
the source leaves `cols` uninitialised there, modelled as 0. -/
def typeCols : GLTypeEnum → Nat
  | .floatVec4 | .floatMat4 | .floatMat4x2 | .floatMat4x3
  | .doubleVec4 | .doubleMat4 | .doubleMat4x2 | .doubleMat4x3
  | .uintVec4 | .boolVec4 | .intVec4 => 4
  | .floatVec3 | .floatMat3 | .floatMat3x4 | .floatMat3x2
  | .doubleVec3 | .doubleMat3 | .doubleMat3x4 | .doubleMat3x2
  | .uintVec3 | .boolVec3 | .intVec3 => 3
  | .floatVec2 | .floatMat2 | .floatMat2x4 | .floatMat2x3
  | .doubleVec2 | .doubleMat2 | .doubleMat2x4 | .doubleMat2x3
  | .uintVec2 | .boolVec2 | .intVec2 => 2
  | .float | .double | .uint | .int | .bool => 1
  | .other => 0

/-- Human-readable type name: the `switch(values[0])` at lines 561–603.
The `default:` arm leaves the name empty. -/
def typeNameStr : GLTypeEnum → String
  | .floatVec4 => "vec4"   | .floatVec3 => "vec3"   | .floatVec2 => "vec2"
  | .float => "float"
  | .floatMat4 => "mat4"   | .floatMat3 => "mat3"   | .floatMat2 => "mat2"
  | .floatMat4x2 => "mat4x2" | .floatMat4x3 => "mat4x3" | .floatMat3x4 => "mat3x4"
  | .floatMat3x2 => "mat3x2" | .floatMat2x4 => "mat2x4" | .floatMat2x3 => "mat2x3"
  | .doubleVec4 => "dvec4" | .doubleVec3 => "dvec3" | .doubleVec2 => "dvec2"
  | .double => "double"
  | .doubleMat4 => "dmat4" | .doubleMat3 => "dmat3" | .doubleMat2 => "dmat2"
  | .doubleMat4x2 => "dmat4x2" | .doubleMat4x3 => "dmat4x3" | .doubleMat3x4 => "dmat3x4"
  | .doubleMat3x2 => "dmat3x2" | .doubleMat2x4 => "dmat2x4" | .doubleMat2x3 => "dmat2x3"
  | .uintVec4 => "uvec4"   | .uintVec3 => "uvec3"   | .uintVec2 => "uvec2"
  | .uint => "uint"
  | .boolVec4 => "bvec4"   | .boolVec3 => "bvec3"   | .boolVec2 => "bvec2"
  | .bool => "bool"
  | .intVec4 => "ivec4"    | .intVec3 => "ivec3"    | .intVec2 => "ivec2"
  | .int => "int"
  | .other => ""

/-- The `descriptor` part of `DynShaderVariableType` (lines 42–55). -/
structure VarDescr where
  vtype : VarType
  rows : Nat
  cols : Nat
  elements : Nat
  rowMajorStorage : Bool
  typeName : String
  deriving DecidableEq, Repr

/-- `DynShaderConstant` (lines 57–66): one node of the reconstructed
variable tree.  `name` is kept as a character list because the source walks
the name with a character pointer; `regVec`/`regComp` are the `reg.vec` /
`reg.comp` fields (`uint32_t`, so values are `Nat` below `2^32`). -/
inductive DynShaderConstant : Type where
  | mk (name : List Char) (regVec : Nat) (regComp : Nat)
       (descr : VarDescr) (members : List DynShaderConstant)

/-- Field accessor: `name`. -/
def DynShaderConstant.name : DynShaderConstant → List Char
  | .mk n _ _ _ _ => n

/-- Field accessor: `reg.vec`. -/
def DynShaderConstant.regVec : DynShaderConstant → Nat
  | .mk _ v _ _ _ => v

/-- Field accessor: `reg.comp`. -/
def DynShaderConstant.regComp : DynShaderConstant → Nat
  | .mk _ _ c _ _ => c

/-- Field accessor: `type.descriptor`. -/
def DynShaderConstant.descr : DynShaderConstant → VarDescr
  | .mk _ _ _ d _ => d

/-- Field accessor: `type.members`. -/
def DynShaderConstant.members : DynShaderConstant → List DynShaderConstant
  | .mk _ _ _ _ ms => ms

/-- Convenience accessor for `type.descriptor.elements`. -/
def DynShaderConstant.elements (v : DynShaderConstant) : Nat :=
  v.descr.elements

/-- One flat variable record, i.e. the data `ReconstructVarTree` obtains
from the driver for one `varIdx`: the `values[]` array filled at line 414
(minus `values[1]`, the name length, which is determined by `name`) and the
name string fetched at line 625.  The `GLint` property values are `Int`
(the driver initialises them to `-1`). -/
structure FlatRecord where
  /-- `values[0]`, `GL_TYPE`. -/
  glType : GLTypeEnum
  /-- the string returned by `glGetProgramResourceName`; `values[1]` is
  `name.length + 1`. -/
  name : String
  /-- `values[2]`, `GL_LOCATION` (or `GL_OFFSET` for buffer variables). -/
  location : Int
  /-- `values[3]`, `GL_BLOCK_INDEX`. -/
  blockIndex : Int
  /-- `values[4]`, `GL_ARRAY_SIZE`. -/
  arraySize : Int
  /-- `values[5]`, `GL_OFFSET`. -/
  offset : Int
  /-- `values[6]`, `GL_IS_ROW_MAJOR`. -/
  isRowMajor : Int

/-- The register assignment of lines 605–620: `reg.vec`/`reg.comp` from
`values[5]` (offset) and `values[2]` (location).  The last arm is
`var.reg.vec = var.reg.comp = ~0U` (line 619), i.e. `2^32 - 1`. -/
def regOf (location offset : Int) : Nat × Nat :=
  if offset = -1 ∧ 0 ≤ location then
    (location.toNat, 0)
  else if 0 ≤ offset then
    ((offset / 16).toNat, ((offset / 4) % 4).toNat)
  else
    (2 ^ 32 - 1, 2 ^ 32 - 1)

/-- The character positions of `var.name` read by the trailing-`[0]` check
at line 630: with `int32_t c = values[1]-1` (= the name's length, line 627)
the source evaluates `var.name[c-3]`, `var.name[c-2]` and `var.name[c-1]`,
computed in signed arithmetic with no bounds guard. -/
def trimReadPositions (nameLen : Nat) : List Int :=
  [(nameLen : Int) - 3, (nameLen : Int) - 2, (nameLen : Int) - 1]

/-- All three reads of the trailing-`[0]` check hit a valid index of the
name string. -/
def trimReadsInBounds (nameLen : Nat) : Prop :=
  ∀ i ∈ trimReadPositions nameLen, 0 ≤ i ∧ i < (nameLen : Int)

instance (n : Nat) : Decidable (trimReadsInBounds n) := by
  unfold trimReadsInBounds; infer_instance

/-- The trailing-`[0]` trim of lines 627–633, for names of length ≥ 3
(shorter names make the source index the string at a negative position,
which is undefined; see `trimReadPositions`): if the name ends in the three
characters `[0]` they are dropped and `elements` is kept, otherwise the
name is kept and `elements` is reset to `0`.  Returns the walked name and
the resulting element count. -/
def trimNameZero (nm : List Char) (elements : Nat) : List Char × Nat :=
  if nm.length ≥ 3 ∧ nm.drop (nm.length - 3) = ['[', '0', ']'] then
    (nm.take (nm.length - 3), elements)
  else
    (nm, 0)

/-- Is `ch` one of the two name separators?  This is the loop condition
`*nm != '.' && *nm != '['` (line 654) negated. -/
def isSep (ch : Char) : Bool :=
  ch == '.' || ch == '['

/-- `strchr(nm, '.') || strchr(nm, '[')`: the outer loop guard at
line 651. -/
def hasSep (nm : List Char) : Bool :=
  nm.any isSep

/-- Split the name at the first separator: the scan of lines 653–659
(`base` is everything before the first `.`/`[`; the second component
starts with that separator when one exists). -/
def splitSep : List Char → List Char × List Char
  | [] => ([], [])
  | ch :: t =>
    if isSep ch then ([], ch :: t)
    else
      let p := splitSep t
      (ch :: p.1, p.2)

/-- Split a character list into its leading decimal digits and the rest:
the index scan of lines 667–672. -/
def splitDigits : List Char → List Char × List Char
  | [] => ([], [])
  | ch :: t =>
    if '0' ≤ ch ∧ ch ≤ '9' then
      let p := splitDigits t
      (ch :: p.1, p.2)
    else ([], ch :: t)

/-- Decimal accumulation `arrayIdx = arrayIdx*10 + (*nm - '0')`
(lines 669–670). -/
def digitsVal : List Char → Nat → Nat
  | [], acc => acc
  | ch :: t, acc => digitsVal t (acc * 10 + (ch.toNat - '0'.toNat))

/-- The interior node built at lines 697–706 for base-name `base`:
`reg.vec` is the current record's `reg.vec`, `reg.comp` is 0, the
descriptor is the synthetic `"struct"` descriptor, and `elements` is
`RDCMAX(1U, uint32_t(arrayIdx+1))` for an array segment and `0` for a
plain member segment. -/
def parentVarOf (base : List Char) (leafVec : Nat) (vt : VarType) (elems : Nat) :
    DynShaderConstant :=
  .mk base leafVec 0
    { vtype := vt, rows := 0, cols := 0, elements := elems,
      rowMajorStorage := false, typeName := "struct" } []

/-- The find-or-create step of lines 708–734.  If a sibling named
`pv.name` exists, its `elements` is raised to the maximum with
`pv.elements`, its `reg.vec` lowered to the minimum with `pv.regVec`
(lines 718–720), and its member list is rewritten by the continuation `f`
(the descent); otherwise `pv` is appended and `f` rewrites its empty
member list (lines 730–734). -/
def findOrCreate (pv : DynShaderConstant)
    (f : List DynShaderConstant → List DynShaderConstant) :
    List DynShaderConstant → List DynShaderConstant
  | [] => [.mk pv.name pv.regVec pv.regComp pv.descr (f [])]
  | v :: vs =>
    if v.name == pv.name then
      .mk v.name (min v.regVec pv.regVec) v.regComp
        { v.descr with elements := max v.descr.elements pv.descr.elements }
        (f v.members) :: vs
    else
      v :: findOrCreate pv f vs

/-- Replace a node's name, keeping everything else: used when the walked
tail of the record's name becomes the leaf's own name (lines 748–750). -/
def DynShaderConstant.withName (v : DynShaderConstant) (nm : List Char) :
    DynShaderConstant :=
  .mk nm v.regVec v.regComp v.descr v.members

/-- The name walk of `ReconstructVarTree` (lines 648–753), inserting the
record's leaf `var` into the sibling list reached by the dotted/indexed
path `nm`.  One loop iteration consumes at least the separator character,
so the spare `fuel` (called with `nm.length`) is never exhausted; the
`fuel = 0` arm is unreachable then.

Per iteration: split off `base`; on an array segment `base[k]`, if the
character after the `]` position is not a `.` the record is abandoned with
a warning before anything is inserted at this level (lines 682–693,
modelled by returning the siblings unchanged); otherwise find-or-create
the interior node (elements bumped to `max`), and if `k > 0` stop without
descending (lines 739–743) — the node keeps (or is created with) its
members, and no leaf is inserted.  On a plain `.` segment find-or-create
with `elements = 0` and descend.  When no separator remains, the tail
becomes the leaf's name and the leaf is appended (lines 746–753). -/
def walkInsertAux (var : DynShaderConstant) :
    Nat → List Char → List DynShaderConstant → List DynShaderConstant
  | 0, _, siblings => siblings
  | fuel + 1, nm, siblings =>
    if hasSep nm then
      let base := (splitSep nm).1
      let rest := (splitSep nm).2
      let isarray := rest.head? == some '['
      let rest1 := rest.drop 1
      if isarray then
        let digits := (splitDigits rest1).1
        let arrayIdx := digitsVal digits 0
        let rest2 := ((splitDigits rest1).2).drop 1
        if rest2.head? == some '.' then
          let pv := parentVarOf base var.regVec var.descr.vtype (max 1 (arrayIdx + 1))
          if arrayIdx > 0 then
            findOrCreate pv id siblings
          else
            findOrCreate pv (walkInsertAux var fuel rest2.tail) siblings
        else
          siblings
      else
        let pv := parentVarOf base var.regVec var.descr.vtype 0
        findOrCreate pv (walkInsertAux var fuel rest1) siblings
    else
      siblings ++ [var.withName nm]

/-- Entry point of the walk: the source walks the (trimmed) name in place,
so the fuel bound is that name's length. -/
def walkInsert (var : DynShaderConstant) (nm : List Char)
    (siblings : List DynShaderConstant) : List DynShaderConstant :=
  walkInsertAux var nm.length nm siblings

/-- The per-record preparation of `ReconstructVarTree` before any sibling
list is touched (lines 416–633): classify the type (`none` = record
silently skipped), set `elements = RDCMAX(1, values[4])` (line 418), fill
the descriptor, assign `reg` (lines 605–620), read the name, and apply the
trailing-`[0]` trim (lines 627–633).  Returns the walked name together
with the prepared leaf node. -/
def prepareLeaf (r : FlatRecord) : Option (List Char × DynShaderConstant) :=
  match classifyVarType r.glType with
  | none => none
  | some vt =>
    let elements0 : Nat := (max 1 r.arraySize).toNat
    let reg := regOf r.location r.offset
    let trimmed := trimNameZero r.name.data elements0
    some (trimmed.1,
      .mk trimmed.1 reg.1 reg.2
        { vtype := vt, rows := typeRows r.glType, cols := typeCols r.glType,
          elements := trimmed.2, rowMajorStorage := 0 < r.isRowMajor,
          typeName := typeNameStr r.glType } [])

/-- The mutable state `ReconstructVarTree` works on: the per-block sibling
lists (`parentBlocks[0..numParentBlocks)`) and the optional default block
(`defaultBlock`, a null pointer when absent). -/
structure BuildState where
  blocks : List (List DynShaderConstant)
  defaultBlk : Option (List DynShaderConstant)

/-- The parent-list selection of lines 635–646, as a pure decision:
`some (some i)` means "insert into `blocks[i]`", `some none` means "insert
into the default block", and `none` means the record is dropped with the
`RDCWARN` of line 644 (block index present but out of range and no default
block supplied).  Negative indices other than `-1` would index the block
array out of bounds in the source (undefined); they do not occur: GL
returns `-1` for "no block". -/
def selectParent (blockIndex : Int) (numBlocks : Nat)
    (hasDefault : Bool) : Option (Option Nat) :=
  if blockIndex ≠ -1 ∧ blockIndex < (numBlocks : Int) then
    some (some blockIndex.toNat)
  else if hasDefault then
    some none
  else
    none

/-- Does this record hit the missing-parent `RDCWARN` at line 644 (and get
dropped)?  True exactly when the record survives the type classifier but
`selectParent` fails. -/
def orphanWarned (r : FlatRecord) (st : BuildState) : Bool :=
  (classifyVarType r.glType).isSome &&
    (selectParent r.blockIndex st.blocks.length st.defaultBlk.isSome).isNone

/-- One full `ReconstructVarTree` call (lines 398–754) on the state: skip
unclassifiable records, prepare the leaf, select the parent list (dropping
the record if none), walk the name and write the updated list back. -/
def processRecord (st : BuildState) (r : FlatRecord) : BuildState :=
  match prepareLeaf r with
  | none => st
  | some (nm, var) =>
    match selectParent r.blockIndex st.blocks.length st.defaultBlk.isSome with
    | none => st
    | some (some i) =>
      { st with blocks := st.blocks.set i (walkInsert var nm (st.blocks.getD i [])) }
    | some none =>
      match st.defaultBlk with
      | none => st
      | some d => { st with defaultBlk := some (walkInsert var nm d) }

/-- The record loop: `ReconstructVarTree` is called once per resource index
in order (lines 1382–1385 for buffer variables, lines 1421–1424 for
uniforms). -/
def buildTree (records : List FlatRecord) (st : BuildState) : BuildState :=
  records.foldl processRecord st

/-- The strict comparator `offset_sort::operator()` of lines 72–76:
`if(a.reg.vec == b.reg.vec) return a.reg.comp < b.reg.comp;
else return a.reg.vec < b.reg.vec`. -/
def offsetLess (a b : DynShaderConstant) : Bool :=
  if a.regVec = b.regVec then a.regComp < b.regComp else a.regVec < b.regVec

/-- The non-strict ordering induced by `offsetLess`: `std::sort` with a
strict weak ordering `lt` produces a sequence in which consecutive
elements satisfy `¬ lt b a`, i.e. this relation (see `regLe_iff`). -/
def regLe (a b : DynShaderConstant) : Prop :=
  a.regVec < b.regVec ∨ (a.regVec = b.regVec ∧ a.regComp ≤ b.regComp)

instance : DecidableRel regLe := fun a b =>
  inferInstanceAs
    (Decidable (a.regVec < b.regVec ∨ (a.regVec = b.regVec ∧ a.regComp ≤ b.regComp)))

mutual

/-- Recursive sort of one node's member list: the loop at lines 80–81. -/
def sortNode : DynShaderConstant → DynShaderConstant
  | .mk n v c d ms => .mk n v c d (List.insertionSort regLe (mapSortNode ms))

/-- `sort(vector<DynShaderConstant>&)` (lines 68–82) applied to each
element.  The source sorts a list first and then recurses into the
members of each element; the comparator reads only the `reg` fields,
which `sortNode` never changes, so recursing first and sorting the
rewritten list afterwards — the direction that is structurally
recursive — satisfies the same `std::sort` contract.  `std::sort`
determines its result only up to the comparator (`stdSortSpec` below):
the relative order of equal-key elements is unspecified, and real
implementations are not stable.  Execution requires fixing some
deterministic refinement; this embedding uses `List.insertionSort`,
proved to be one legal outcome (`sortForest_stdSortSpec`), and no claim
theorem relies on where it places equal-key elements. -/
def mapSortNode : List DynShaderConstant → List DynShaderConstant
  | [] => []
  | t :: ts => sortNode t :: mapSortNode ts

end

/-- `sort` (lines 68–82) on a whole sibling list, members included. -/
def sortForest (l : List DynShaderConstant) : List DynShaderConstant :=
  List.insertionSort regLe (mapSortNode l)

/-- The uniform-reflection driver loop of `MakeShaderReflection`
(lines 1421–1460): start from `numUBOs` empty block lists and an empty
default (`globalUniforms`) list, run `ReconstructVarTree` on every record
in order, then `sort` every resulting list (lines 1441 and 1456).  The
SSBO loop at lines 1382–1391 is the same with no default list. -/
def buildAndSort (records : List FlatRecord) (numBlocks : Nat)
    (withDefault : Bool) : BuildState :=
  let st := buildTree records
    { blocks := List.replicate numBlocks [],
      defaultBlk := if withDefault then some [] else none }
  { blocks := st.blocks.map sortForest,
    defaultBlk := st.defaultBlk.map sortForest }

/-! ## The SPIR-V disassembler (`DisassembleSPIRV`, lines 2105–2220)

The word stream is a `List Nat` of `uint32_t` values (each below `2^32`).
Modelled from the spec where the external header `glslang/SPIRV/spirv.h`
is missing from the snapshot: `spv::MagicNumber` and the `spv::Op` tag
values below come from that header (the provisional SPIR-V revision this
tree builds against).  The code only compares tags for equality, so the
theorems depend just on the listed tags being pairwise distinct. -/

/-- `spv::MagicNumber`. -/
def spvMagicNumber : Nat := 0x07230203

/-- `spv::OpSource`. -/
def opSourceTag : Nat := 1

/-- `spv::OpExtInstImport`. -/
def opExtInstImportTag : Nat := 4

/-- `spv::OpMemoryModel`. -/
def opMemoryModelTag : Nat := 5

/-- `spv::OpEntryPoint`. -/
def opEntryPointTag : Nat := 6

/-- `spv::OpFunction`. -/
def opFunctionTag : Nat := 40

/-- `spv::OpFunctionEnd`. -/
def opFunctionEndTag : Nat := 42

/-- `spv::OpName`. -/
def opNameTag : Nat := 54

/-- Total word count of an instruction: `spirv[it] >> 16` (lines 2154,
2170), a `uint16_t`. -/
def instrWordCount (w : Nat) : Nat := (w / 65536) % 65536

/-- Tag of an instruction: `spirv[it] & 0xffff` (lines 2155, 2171). -/
def instrTag (w : Nat) : Nat := w % 65536

/-- The four little-endian bytes of one 32-bit word. -/
def wordBytes (w : Nat) : List Nat :=
  [w % 256, w / 256 % 256, w / 65536 % 256, w / 16777216 % 256]

/-- Literal-string decoding: `(const char *)&spirv[it+2]` (lines 2158,
2182–2183) reinterprets the operand words as a NUL-terminated byte string.
A missing terminator would make the source read past the buffer; the
embedding stops at the end of the word list. -/
def decodeLiteralString (ws : List Nat) : String :=
  (((ws.map wordBytes).flatten.takeWhile (fun b => b ≠ 0)).map Char.ofNat).asString

/-- Pass 1 (lines 2151–2161): scan the instructions from word 5, recording
`resultnames[spirv[it+1]] = (const char *)&spirv[it+2]` for every `OpName`.
The scan advances by each instruction's own word count with no
zero/overflow check, so a zero-count instruction makes the source loop
forever; the structural `fuel` makes the embedding total, and the
exhaustion arm is unreachable whenever every traversed instruction has a
positive word count and `fuel ≥ spirv.length - it`.  An id at or above the
declared bound would make the source write out of bounds (undefined);
`List.set` ignores such writes. -/
def scanNames (spirv : List Nat) :
    Nat → Nat → List String → List String
  | 0, _, names => names
  | fuel + 1, it, names =>
    if it < spirv.length then
      let w := spirv.getD it 0
      let names1 :=
        if instrTag w = opNameTag then
          names.set (spirv.getD (it + 1) 0)
            (decodeLiteralString (spirv.drop (it + 2)))
        else names
      scanNames spirv fuel (it + instrWordCount w) names1
    else names

/-- The loop body of lines 2163–2165 from position `i` on: every id whose
recorded name is still empty gets `"<id>"`
(`StringFormat::Fmt("<%d>", i)`). -/
def fillNamesFrom : Nat → List String → List String
  | _, [] => []
  | i, s :: t =>
    (if s = "" then "<" ++ toString i ++ ">" else s) :: fillNamesFrom (i + 1) t

/-- The placeholder fill of lines 2163–2165. -/
def fillNames (names : List String) : List String :=
  fillNamesFrom 0 names

/-- The whole of pass 1: `resultnames` starts as `idbound` empty strings
(lines 2147–2148), is filled by the scan and completed with placeholders. -/
def resultNamesOf (spirv : List Nat) (idbound : Nat) : List String :=
  fillNames (scanNames spirv spirv.length 5 (List.replicate idbound ""))

/-- The operand summary of one pass-2 line, structurally (the
`StringFormat::Fmt` bodies of lines 2178–2194).  `plain` is every tag with
no dedicated formatting (`body` stays empty). -/
inductive OpBody where
  | plain
  | source (lang version : Nat)
  | extImport (s : String)
  | memoryModel (addressing memory : Nat)
  | entryPoint (name : String) (model : Nat)
  deriving DecidableEq, Repr

/-- One appended piece of the disassembly text, structurally.  `instr`
lines carry the per-scope index when emitted inside a function
(`"% 4u: …"`, line 2210) and `none` outside (line 2215). -/
inductive DisasmLine where
  | versionInfo (version generatorId : Nat)
  | idBoundInfo (bound : Nat)
  | reservedWarning
  | magicMismatch (value : Nat)
  | instr (scopeIdx : Option Nat) (tag : Nat) (body : OpBody)
  deriving DecidableEq, Repr

/-- The pass-2 loop state: the (still mutable, see `OpExtInstImport` at
line 2182) name table, the `infunc` flag, the `opidx` counter and the
emitted lines. -/
structure Pass2State where
  names : List String
  infunc : Bool
  opidx : Nat
  out : List DisasmLine

/-- One iteration of the pass-2 loop body (lines 2170–2216) for the
instruction at `it`: compute the operand summary via the `switch`
(`OpExtInstImport` also (re)binds the result name, line 2182;
`OpFunction`/`OpFunctionEnd` toggle `infunc` before the line is emitted,
so the `OpFunction` line itself is numbered and the `OpFunctionEnd` line
is not; `OpName` is silent), then emit the line — numbered with `opidx`
inside a function, plain otherwise, nothing when silent. -/
def pass2Step (spirv : List Nat) (it : Nat) (st : Pass2State) : Pass2State :=
  let w := spirv.getD it 0
  let tag := instrTag w
  let names :=
    if tag = opExtInstImportTag then
      st.names.set (spirv.getD (it + 1) 0)
        (decodeLiteralString (spirv.drop (it + 2)))
    else st.names
  let body : OpBody :=
    if tag = opSourceTag then
      .source (spirv.getD (it + 1) 0) (spirv.getD (it + 2) 0)
    else if tag = opExtInstImportTag then
      .extImport (decodeLiteralString (spirv.drop (it + 2)))
    else if tag = opMemoryModelTag then
      .memoryModel (spirv.getD (it + 1) 0) (spirv.getD (it + 2) 0)
    else if tag = opEntryPointTag then
      .entryPoint (names.getD (spirv.getD (it + 2) 0) "")
        (spirv.getD (it + 1) 0)
    else .plain
  let infunc :=
    if tag = opFunctionTag then true
    else if tag = opFunctionEndTag then false
    else st.infunc
  let silent := tag = opNameTag
  if infunc then
    { names := names, infunc := infunc, opidx := st.opidx + 1,
      out := st.out ++ [.instr (some st.opidx) tag body] }
  else if ¬silent then
    { names := names, infunc := infunc, opidx := st.opidx,
      out := st.out ++ [.instr none tag body] }
  else
    { names := names, infunc := infunc, opidx := st.opidx, out := st.out }

/-- Pass 2 (lines 2167–2219): re-scan the instructions from word 5,
running `pass2Step` on each and advancing by the instruction's own word
count.  `opidx` is incremented on every line emitted with `infunc` set and
is never reset.  The same fuel/termination caveat as for `scanNames`
applies. -/
def formatPass (spirv : List Nat) :
    Nat → Nat → Pass2State → Pass2State
  | 0, _, st => st
  | fuel + 1, it, st =>
    if it < spirv.length then
      formatPass spirv fuel (it + instrWordCount (spirv.getD it 0))
        (pass2Step spirv it st)
    else st

/-- `DisassembleSPIRV` (lines 2105–2220) minus the fixed banner of
lines 2108–2118 (`"<stage> Shader SPIR-V:\n\n"`, a constant prefix
independent of the stream): check the magic number — emitting exactly one
diagnostic with the mismatched value and decoding nothing on failure
(lines 2120–2124) — then the version/generator and id-bound lines, the
reserved-word warning, pass 1, and pass 2. -/
def disassemble (spirv : List Nat) : List DisasmLine :=
  if spirv.getD 0 0 ≠ spvMagicNumber then
    [.magicMismatch (spirv.getD 0 0)]
  else
    let idbound := spirv.getD 3 0
    let headerLines : List DisasmLine :=
      [.versionInfo (spirv.getD 1 0) (spirv.getD 2 0), .idBoundInfo idbound] ++
        (if spirv.getD 4 0 ≠ 0 then [.reservedWarning] else [])
    let names := resultNamesOf spirv idbound
    headerLines ++
      (formatPass spirv spirv.length 5
        { names := names, infunc := false, opidx := 0, out := [] }).out

/-- The advance of the scan position performed by both passes for the
instruction at `it`: `it += WordCount` (lines 2160, 2218). -/
def scanAdvance (spirv : List Nat) (it : Nat) : Nat :=
  it + instrWordCount (spirv.getD it 0)

/-- The scope indices of the emitted instruction lines, in order (header
lines are not instructions and are skipped). -/
def instrIndices (ls : List DisasmLine) : List (Option Nat) :=
  ls.filterMap (fun l =>
    match l with
    | .instr i _ _ => some i
    | _ => none)

/-- Only the indices of the lines that carry one. -/
def indexedIndices (ls : List DisasmLine) : List Nat :=
  ls.filterMap (fun l =>
    match l with
    | .instr (some i) _ _ => some i
    | _ => none)

/-! ## Observers on the reconstructed tree -/

/-- The names of a sibling list, in order. -/
def namesOf (l : List DynShaderConstant) : List (List Char) :=
  l.map DynShaderConstant.name

/-- The first sibling with the given name, if any (the linear search of
lines 711–727). -/
def lookupName (l : List DynShaderConstant) (nm : List Char) :
    Option DynShaderConstant :=
  l.find? (fun v => v.name == nm)

/-- Are the names of this one sibling list pairwise distinct? -/
def namesNodupB (l : List DynShaderConstant) : Bool :=
  decide (namesOf l).Nodup

mutual

/-- Does every sibling list inside this node have pairwise distinct
names? -/
def nodeUniqueB : DynShaderConstant → Bool
  | .mk _ _ _ _ ms => namesNodupB ms && forestUniqueAllB ms

/-- `nodeUniqueB` over a list. -/
def forestUniqueAllB : List DynShaderConstant → Bool
  | [] => true
  | t :: ts => nodeUniqueB t && forestUniqueAllB ts

end

/-- Names are pairwise distinct within this sibling list and, recursively,
within every nested member list. -/
def forestUniqueB (l : List DynShaderConstant) : Bool :=
  namesNodupB l && forestUniqueAllB l

/-- Is the list ordered by `regLe` between consecutive elements? -/
def pairwiseLeB : List DynShaderConstant → Bool
  | [] => true
  | [_] => true
  | a :: b :: t => decide (regLe a b) && pairwiseLeB (b :: t)

mutual

/-- Is every sibling list inside this node ordered by `regLe`? -/
def nodeSortedB : DynShaderConstant → Bool
  | .mk _ _ _ _ ms => pairwiseLeB ms && forestSortedAllB ms

/-- `nodeSortedB` over a list. -/
def forestSortedAllB : List DynShaderConstant → Bool
  | [] => true
  | t :: ts => nodeSortedB t && forestSortedAllB ts

end

/-- This sibling list and, recursively, every nested member list is
ordered by `regLe`. -/
def forestSortedB (l : List DynShaderConstant) : Bool :=
  pairwiseLeB l && forestSortedAllB l

/-- A shorthand for the records used in the concrete test inputs: a plain
`float` uniform outside any block, located by byte offset `off`
(`reg.vec = off / 16`). -/
def floatRec (nm : String) (off : Int) : FlatRecord :=
  { glType := .float, name := nm, location := -1, blockIndex := -1,
    arraySize := 1, offset := off, isRowMajor := 0 }

/-! ## Helper lemmas: the find-or-create step -/

theorem findOrCreate_of_lookup_none (pv : DynShaderConstant)
    (f : List DynShaderConstant → List DynShaderConstant) :
    ∀ siblings, lookupName siblings pv.name = none →
      findOrCreate pv f siblings =
        siblings ++ [.mk pv.name pv.regVec pv.regComp pv.descr (f [])]
  | [], _ => rfl
  | v :: vs, h => by
    rw [lookupName, List.find?_eq_none] at h
    have hv : (v.name == pv.name) = false :=
      Bool.not_eq_true _ ▸ Bool.of_not_eq_true (h v (by simp))
    have htail : lookupName vs pv.name = none := by
      rw [lookupName, List.find?_eq_none]
      intro x hx
      exact h x (by simp [hx])
    rw [findOrCreate, if_neg (by simp [hv]),
      findOrCreate_of_lookup_none pv f vs htail, List.cons_append]

theorem findOrCreate_of_lookup_some (pv : DynShaderConstant)
    (f : List DynShaderConstant → List DynShaderConstant) :
    ∀ siblings v, lookupName siblings pv.name = some v →
      ∃ pre post,
        siblings = pre ++ v :: post ∧
        (∀ w ∈ pre, (w.name == pv.name) = false) ∧
        (v.name == pv.name) = true ∧
        findOrCreate pv f siblings =
          pre ++ .mk v.name (min v.regVec pv.regVec) v.regComp
            { v.descr with elements := max v.descr.elements pv.descr.elements }
            (f v.members) :: post
  | [], v, h => by simp [lookupName] at h
  | w :: ws, v, h => by
    by_cases hw : (w.name == pv.name) = true
    · have hfind : lookupName (w :: ws) pv.name = some w := by
        rw [lookupName,
          @List.find?_cons_of_pos _ (fun u : DynShaderConstant => u.name == pv.name) w ws hw]
      have hv : w = v := Option.some.inj (hfind ▸ h)
      subst hv
      refine ⟨[], ws, rfl, by simp, hw, ?_⟩
      rw [findOrCreate, if_pos hw, List.nil_append]
    · have hw' : ¬ (fun u : DynShaderConstant => u.name == pv.name) w = true := hw
      have htail : lookupName ws pv.name = some v := by
        rw [lookupName] at h ⊢
        rwa [@List.find?_cons_of_neg _ (fun u : DynShaderConstant => u.name == pv.name) w ws hw']
          at h
      obtain ⟨pre, post, hsplit, hpre, hv, heq⟩ :=
        findOrCreate_of_lookup_some pv f ws v htail
      refine ⟨w :: pre, post, by simp [hsplit], ?_, hv, ?_⟩
      · intro u hu
        rcases List.mem_cons.mp hu with rfl | hu
        · exact Bool.not_eq_true _ ▸ Bool.of_not_eq_true hw
        · exact hpre u hu
      · rw [findOrCreate, if_neg hw, heq, List.cons_append]

theorem namesOf_findOrCreate_of_lookup_some (pv : DynShaderConstant)
    (f : List DynShaderConstant → List DynShaderConstant)
    (siblings : List DynShaderConstant) (v : DynShaderConstant)
    (h : lookupName siblings pv.name = some v) :
    namesOf (findOrCreate pv f siblings) = namesOf siblings := by
  obtain ⟨pre, post, hsplit, -, -, heq⟩ := findOrCreate_of_lookup_some pv f siblings v h
  rw [heq, hsplit]
  simp [namesOf, DynShaderConstant.name]

theorem namesOf_findOrCreate_of_lookup_none (pv : DynShaderConstant)
    (f : List DynShaderConstant → List DynShaderConstant)
    (siblings : List DynShaderConstant)
    (h : lookupName siblings pv.name = none) :
    namesOf (findOrCreate pv f siblings) = namesOf siblings ++ [pv.name] := by
  rw [findOrCreate_of_lookup_none pv f siblings h]
  simp [namesOf, DynShaderConstant.name]

theorem lookupName_findOrCreate_of_lookup_some (pv : DynShaderConstant)
    (f : List DynShaderConstant → List DynShaderConstant)
    (siblings : List DynShaderConstant) (v : DynShaderConstant)
    (h : lookupName siblings pv.name = some v) :
    lookupName (findOrCreate pv f siblings) pv.name =
      some (.mk v.name (min v.regVec pv.regVec) v.regComp
        { v.descr with elements := max v.descr.elements pv.descr.elements }
        (f v.members)) := by
  obtain ⟨pre, post, hsplit, hpre, hv, heq⟩ := findOrCreate_of_lookup_some pv f siblings v h
  rw [heq]
  unfold lookupName
  rw [List.find?_append]
  have hpre' : List.find? (fun w : DynShaderConstant => w.name == pv.name) pre = none := by
    rw [List.find?_eq_none]
    intro w hw
    simp [hpre w hw]
  rw [hpre', Option.none_or,
    @List.find?_cons_of_pos _ (fun u : DynShaderConstant => u.name == pv.name) _ post
      (show ((DynShaderConstant.mk v.name (min v.regVec pv.regVec) v.regComp
        { v.descr with elements := max v.descr.elements pv.descr.elements }
        (f v.members)).name == pv.name) = true from hv)]

/-! ## Helper lemmas: the name splitters -/

theorem splitSep_append_sep (c0 : Char) (r : List Char) (hc : isSep c0 = true) :
    ∀ base, (∀ c ∈ base, isSep c = false) →
      splitSep (base ++ c0 :: r) = (base, c0 :: r)
  | [], _ => by simp [splitSep, hc]
  | b :: bs, h => by
    have hb : isSep b = false := h b (by simp)
    have hbs : ∀ c ∈ bs, isSep c = false := fun c hcm => h c (by simp [hcm])
    simp [splitSep, hb, splitSep_append_sep c0 r hc bs hbs]

theorem splitDigits_append_nondigit (c0 : Char) (r : List Char)
    (hc : ¬('0' ≤ c0 ∧ c0 ≤ '9')) :
    ∀ ds, (∀ c ∈ ds, '0' ≤ c ∧ c ≤ '9') →
      splitDigits (ds ++ c0 :: r) = (ds, c0 :: r)
  | [], _ => by simp [splitDigits, hc]
  | d :: ds, h => by
    have hd : '0' ≤ d ∧ d ≤ '9' := h d (by simp)
    have hds : ∀ c ∈ ds, '0' ≤ c ∧ c ≤ '9' := fun c hcm => h c (by simp [hcm])
    simp [splitDigits, hd, splitDigits_append_nondigit c0 r hc ds hds]

theorem hasSep_append_sep (base : List Char) (c0 : Char) (r : List Char)
    (hc : isSep c0 = true) : hasSep (base ++ c0 :: r) = true := by
  simp [hasSep, List.any_append, List.any_cons, hc]

/-! ## Helper lemmas: one walk iteration -/

/-- One iteration of the walk on a plain `.`-separated structure-member
segment (lines 653–659 with `isarray = false`, then 696–734): find or
create the interior node with `elements = 0` and descend into its
members. -/
theorem walkInsertAux_member_step (var : DynShaderConstant) (fuel : Nat)
    (base rest : List Char) (siblings : List DynShaderConstant)
    (hb : ∀ c ∈ base, isSep c = false) :
    walkInsertAux var (fuel + 1) (base ++ '.' :: rest) siblings =
      findOrCreate (parentVarOf base var.regVec var.descr.vtype 0)
        (walkInsertAux var fuel rest) siblings := by
  have hss : splitSep (base ++ '.' :: rest) = (base, '.' :: rest) :=
    splitSep_append_sep '.' rest rfl base hb
  simp [walkInsertAux, hasSep_append_sep base '.' rest rfl, hss]

/-- One iteration of the walk on an array segment `base[k]` continued by a
`.` (lines 653–694 with `isarray = true`, then 696–743): find or create
the interior node with `elements = max(1, k+1) = k+1`, and descend into
its members only when `k = 0`. -/
theorem walkInsertAux_array_step (var : DynShaderConstant) (fuel : Nat)
    (base ds rest : List Char) (siblings : List DynShaderConstant)
    (hb : ∀ c ∈ base, isSep c = false)
    (hds : ∀ c ∈ ds, '0' ≤ c ∧ c ≤ '9') :
    walkInsertAux var (fuel + 1)
        (base ++ '[' :: (ds ++ ']' :: '.' :: rest)) siblings =
      (if digitsVal ds 0 > 0 then
        findOrCreate
          (parentVarOf base var.regVec var.descr.vtype (digitsVal ds 0 + 1))
          id siblings
      else
        findOrCreate
          (parentVarOf base var.regVec var.descr.vtype (digitsVal ds 0 + 1))
          (walkInsertAux var fuel rest) siblings) := by
  have hss : splitSep (base ++ '[' :: (ds ++ ']' :: '.' :: rest)) =
      (base, '[' :: (ds ++ ']' :: '.' :: rest)) :=
    splitSep_append_sep '[' (ds ++ ']' :: '.' :: rest) rfl base hb
  have hsd : splitDigits (ds ++ ']' :: '.' :: rest) = (ds, ']' :: '.' :: rest) :=
    splitDigits_append_nondigit ']' ('.' :: rest) (by decide) ds hds
  have hmax : max 1 (digitsVal ds 0 + 1) = digitsVal ds 0 + 1 := by omega
  simp [walkInsertAux, hasSep_append_sep base '[' (ds ++ ']' :: '.' :: rest) rfl,
    hss, hsd, hmax]

/-- The end of the walk (lines 746–753): no separator remains, so the tail
becomes the leaf's name and the leaf is appended to the reached sibling
list. -/
theorem walkInsertAux_leaf (var : DynShaderConstant) (fuel : Nat)
    (nm : List Char) (siblings : List DynShaderConstant)
    (h : hasSep nm = false) :
    walkInsertAux var (fuel + 1) nm siblings = siblings ++ [var.withName nm] := by
  simp [walkInsertAux, h]

/-! ## Helper lemmas: the sort -/

instance : IsTotal DynShaderConstant regLe :=
  ⟨fun a b => by unfold regLe; omega⟩

instance : IsTrans DynShaderConstant regLe :=
  ⟨fun a b c hab hbc => by unfold regLe at *; omega⟩

theorem pairwiseLeB_of_chain : ∀ l, List.Chain' regLe l → pairwiseLeB l = true
  | [], _ => rfl
  | [_], _ => rfl
  | a :: b :: t, h => by
    rw [List.chain'_cons] at h
    simp [pairwiseLeB, h.1, pairwiseLeB_of_chain (b :: t) h.2]

theorem forestSortedAllB_iff :
    ∀ l, forestSortedAllB l = true ↔ ∀ x ∈ l, nodeSortedB x = true
  | [] => by simp [forestSortedAllB]
  | t :: ts => by
    simp [forestSortedAllB, forestSortedAllB_iff ts]

theorem mem_mapSortNode : ∀ (l : List DynShaderConstant) (x : DynShaderConstant),
    x ∈ mapSortNode l → ∃ t ∈ l, x = sortNode t
  | [], x, h => by simp [mapSortNode] at h
  | t :: ts, x, h => by
    rw [mapSortNode] at h
    rcases List.mem_cons.mp h with rfl | h
    · exact ⟨t, by simp, rfl⟩
    · obtain ⟨u, hu, rfl⟩ := mem_mapSortNode ts x h
      exact ⟨u, by simp [hu], rfl⟩

theorem nodeSortedB_sortNode (nm : List Char) (v c : Nat) (d : VarDescr)
    (ms : List DynShaderConstant) :
    nodeSortedB (sortNode (.mk nm v c d ms)) = forestSortedB (sortForest ms) := rfl

/-- Every sibling list produced by `sortForest` — the top one and every
nested member list — is ordered by `regLe`. -/
theorem forestSortedB_sortForest (l : List DynShaderConstant) :
    forestSortedB (sortForest l) = true := by
  suffices h : ∀ n (l : List DynShaderConstant), sizeOf l < n →
      forestSortedB (sortForest l) = true from h (sizeOf l + 1) l (by omega)
  intro n
  induction n with
  | zero => intro l hl; omega
  | succ n ih =>
    intro l hl
    have h1 : pairwiseLeB (sortForest l) = true :=
      pairwiseLeB_of_chain _
        (List.Pairwise.chain' (List.sorted_insertionSort regLe (mapSortNode l)))
    have h2 : forestSortedAllB (sortForest l) = true := by
      rw [forestSortedAllB_iff]
      intro x hx
      have hx' : x ∈ mapSortNode l := (List.mem_insertionSort regLe).mp hx
      obtain ⟨t, ht, rfl⟩ := mem_mapSortNode l x hx'
      have hts : sizeOf t < sizeOf l := List.sizeOf_lt_of_mem ht
      cases t with
      | mk nm v c d ms =>
        rw [nodeSortedB_sortNode]
        apply ih ms
        have hms : sizeOf ms < sizeOf (DynShaderConstant.mk nm v c d ms) := by
          simp only [DynShaderConstant.mk.sizeOf_spec]
          omega
        omega
    rw [forestSortedB, h1, h2]
    rfl

/-- `pairwiseLeB` is the executable form of "consecutive elements are
ordered by `regLe`". -/
theorem pairwiseLeB_iff_chain :
    ∀ l : List DynShaderConstant, pairwiseLeB l = true ↔ List.Chain' regLe l
  | [] => by simp [pairwiseLeB]
  | [a] => by simp [pairwiseLeB]
  | a :: b :: t => by
    rw [pairwiseLeB, List.chain'_cons, Bool.and_eq_true, decide_eq_true_eq]
    exact and_congr Iff.rfl (pairwiseLeB_iff_chain (b :: t))

/-- Everything `std::sort` at line 78 guarantees about its result: it is
a permutation of the input sequence whose consecutive elements are
ordered by the comparator, i.e. satisfy `¬ offsetLess b a`, which is
`regLe a b` (`regLe_iff_not_offsetLess`, `pairwiseLeB_iff_chain`).  The
relative order of elements with equal `(reg.vec, reg.comp)` keys is left
unspecified by the C++ standard, so the source determines the sorted
sibling list only up to this relation. -/
def stdSortSpec (input output : List DynShaderConstant) : Prop :=
  output.Perm input ∧ pairwiseLeB output = true

/-- The executable refinement `sortForest` is one legal `std::sort`
outcome: it satisfies the full `std::sort` contract on the
member-rewritten input. -/
theorem sortForest_stdSortSpec (l : List DynShaderConstant) :
    stdSortSpec (mapSortNode l) (sortForest l) :=
  ⟨List.perm_insertionSort regLe (mapSortNode l),
   (pairwiseLeB_iff_chain _).mpr
     (List.Pairwise.chain' (List.sorted_insertionSort regLe (mapSortNode l)))⟩

/-- If the storage-order keys of a list are pairwise distinct, elements
with equal keys are equal. -/
theorem keyInj_of_map_nodup :
    ∀ l : List DynShaderConstant,
      (l.map (fun v => (v.regVec, v.regComp))).Nodup →
      ∀ a ∈ l, ∀ b ∈ l, a.regVec = b.regVec → a.regComp = b.regComp → a = b
  | [], _, a, ha, _, _, _, _ => by simp at ha
  | c :: t, hnd, a, ha, b, hb, hv, hc => by
    rw [List.map_cons, List.nodup_cons] at hnd
    rcases List.mem_cons.mp ha with rfl | hat
    · rcases List.mem_cons.mp hb with rfl | hbt
      · rfl
      · exact absurd (List.mem_map.mpr ⟨b, hbt, by rw [hv, hc]⟩) hnd.1
    · rcases List.mem_cons.mp hb with rfl | hbt
      · exact absurd (List.mem_map.mpr ⟨a, hat, by rw [hv, hc]⟩) hnd.1
      · exact keyInj_of_map_nodup t hnd.2 a hat b hbt hv hc

/-- A tie-free input determines the `std::sort` result completely: when
the storage-order keys of the input are pairwise distinct (no ties), any
two lists satisfying the `std::sort` contract are equal — so on such
inputs the sorted sibling list is independent of which `std::sort`
implementation runs. -/
theorem stdSortSpec_unique :
    ∀ (l₁ l l₂ : List DynShaderConstant),
      (∀ a ∈ l, ∀ b ∈ l, a.regVec = b.regVec → a.regComp = b.regComp → a = b) →
      stdSortSpec l l₁ → stdSortSpec l l₂ → l₁ = l₂
  | [], l, l₂, _, h₁, h₂ => by
    have hl : l = [] := h₁.1.symm.eq_nil
    subst hl
    exact (h₂.1.eq_nil).symm
  | a :: t₁, l, l₂, hinj, h₁, h₂ => by
    match l₂, h₂ with
    | [], h₂ =>
      have : a :: t₁ = [] := (h₁.1.trans h₂.1.symm).eq_nil
      exact absurd this (by simp)
    | b :: t₂, h₂ =>
      have hp₁ : List.Pairwise regLe (a :: t₁) :=
        List.chain'_iff_pairwise.mp ((pairwiseLeB_iff_chain _).mp h₁.2)
      have hp₂ : List.Pairwise regLe (b :: t₂) :=
        List.chain'_iff_pairwise.mp ((pairwiseLeB_iff_chain _).mp h₂.2)
      have hmem_b : b ∈ a :: t₁ :=
        h₁.1.mem_iff.mpr (h₂.1.mem_iff.mp (List.mem_cons_self b t₂))
      have hmem_a : a ∈ b :: t₂ :=
        h₂.1.mem_iff.mpr (h₁.1.mem_iff.mp (List.mem_cons_self a t₁))
      have hab : a = b := by
        rcases List.mem_cons.mp hmem_b with hba | hbt
        · exact hba.symm
        · rcases List.mem_cons.mp hmem_a with hab' | hat
          · exact hab'
          · have r₁ : regLe a b := List.rel_of_pairwise_cons hp₁ hbt
            have r₂ : regLe b a := List.rel_of_pairwise_cons hp₂ hat
            have hkeys : a.regVec = b.regVec ∧ a.regComp = b.regComp := by
              unfold regLe at r₁ r₂; omega
            exact hinj a (h₁.1.mem_iff.mp (List.mem_cons_self a t₁))
              b (h₂.1.mem_iff.mp (List.mem_cons_self b t₂)) hkeys.1 hkeys.2
      subst hab
      have hperm : t₂.Perm t₁ := (h₂.1.trans h₁.1.symm).cons_inv
      have hc₁ : pairwiseLeB t₁ = true :=
        (pairwiseLeB_iff_chain _).mpr (((pairwiseLeB_iff_chain _).mp h₁.2).tail)
      have hc₂ : pairwiseLeB t₂ = true :=
        (pairwiseLeB_iff_chain _).mpr (((pairwiseLeB_iff_chain _).mp h₂.2).tail)
      have hinj' : ∀ x ∈ t₁, ∀ y ∈ t₁,
          x.regVec = y.regVec → x.regComp = y.regComp → x = y := by
        intro x hx y hy hv hc
        exact hinj x (h₁.1.mem_iff.mp (List.mem_cons_of_mem a hx))
          y (h₁.1.mem_iff.mp (List.mem_cons_of_mem a hy)) hv hc
      have ht : t₁ = t₂ :=
        stdSortSpec_unique t₁ t₁ t₂ hinj' ⟨List.Perm.refl t₁, hc₁⟩ ⟨hperm, hc₂⟩
      rw [ht]

/-! ## Helper lemmas: the disassembler passes -/

theorem indexedIndices_append (a b : List DisasmLine) :
    indexedIndices (a ++ b) = indexedIndices a ++ indexedIndices b := by
  simp [indexedIndices, List.filterMap_append]

theorem indexedIndices_snoc_some (out : List DisasmLine) (i tag : Nat)
    (body : OpBody) :
    indexedIndices (out ++ [.instr (some i) tag body]) =
      indexedIndices out ++ [i] := by
  simp [indexedIndices, List.filterMap_append]

theorem indexedIndices_snoc_none (out : List DisasmLine) (tag : Nat)
    (body : OpBody) :
    indexedIndices (out ++ [.instr none tag body]) = indexedIndices out := by
  simp [indexedIndices, List.filterMap_append]

theorem pass2Step_indexed (spirv : List Nat) (it : Nat) (st : Pass2State)
    (h : indexedIndices st.out = List.range st.opidx) :
    indexedIndices (pass2Step spirv it st).out =
      List.range (pass2Step spirv it st).opidx := by
  unfold pass2Step
  dsimp only
  split_ifs <;>
    simp [indexedIndices_snoc_some, indexedIndices_snoc_none, h, List.range_succ]

theorem formatPass_indexed (spirv : List Nat) :
    ∀ (fuel it : Nat) (st : Pass2State),
      indexedIndices st.out = List.range st.opidx →
      indexedIndices (formatPass spirv fuel it st).out =
        List.range (formatPass spirv fuel it st).opidx
  | 0, _, _, h => by simpa [formatPass] using h
  | fuel + 1, it, st, h => by
    rw [formatPass]
    by_cases hit : it < spirv.length
    · rw [if_pos hit]
      exact formatPass_indexed spirv fuel _ _ (pass2Step_indexed spirv it st h)
    · rw [if_neg hit]
      exact h

theorem fillNamesFrom_getElem :
    ∀ (names : List String) (k i : Nat),
      (fillNamesFrom k names)[i]? =
        (names[i]?).map
          (fun s => if s = "" then "<" ++ toString (k + i) ++ ">" else s)
  | [], k, i => by simp [fillNamesFrom]
  | s :: t, k, 0 => by simp [fillNamesFrom]
  | s :: t, k, i + 1 => by
    have harith : k + 1 + i = k + (i + 1) := by omega
    simp [fillNamesFrom, fillNamesFrom_getElem t (k + 1) i, harith]

theorem fillNames_getElem (names : List String) (i : Nat) :
    (fillNames names)[i]? =
      (names[i]?).map (fun s => if s = "" then "<" ++ toString i ++ ">" else s) := by
  rw [fillNames, fillNamesFrom_getElem]
  simp

/-- `regLe` is exactly what `std::sort` with the strict comparator
`offset_sort` guarantees between consecutive output elements:
`¬ offsetLess b a`. -/
theorem regLe_iff_not_offsetLess (a b : DynShaderConstant) :
    regLe a b ↔ offsetLess b a = false := by
  unfold regLe offsetLess
  by_cases h : b.regVec = a.regVec <;>
    · simp [h, decide_eq_false_iff_not]
      try omega

/-! ## Concrete inputs used by the claims -/

/-- The merge-correctness input: `foo[0].x` then `foo[2].x`. -/
def fooRecords : List FlatRecord :=
  [floatRec "foo[0].x" 0, floatRec "foo[2].x" 16]

/-- The array-zero-only-detail input: `bar[0].a`, `bar[1].a`, `bar[1].b`. -/
def barRecords : List FlatRecord :=
  [floatRec "bar[0].a" 0, floatRec "bar[1].a" 16, floatRec "bar[1].b" 32]

/-- Two records with the same (separator-free) name `x`. -/
def dupRecords : List FlatRecord :=
  [floatRec "x" 0, floatRec "x" 16]

/-- Three leaves with storage orders 3, 1, 2, inserted in that order. -/
def sortRecords : List FlatRecord :=
  [floatRec "c3" 48, floatRec "c1" 16, floatRec "c2" 32]

/-- The unsorted default-block sibling list built from `sortRecords`: the
state just before the `sort` calls of lines 1441/1456. -/
def preSortOutput : List DynShaderConstant :=
  (buildTree sortRecords { blocks := [], defaultBlk := some [] }).defaultBlk.getD []

/-- Two records with one and the same storage order (both at byte
offset 0, so both get `reg = (0, 0)`). -/
def tieRecords : List FlatRecord :=
  [floatRec "t1" 0, floatRec "t2" 0]

/-- The sibling list `tieRecords` builds, in discovery order. -/
def tieSiblings : List DynShaderConstant :=
  (buildTree tieRecords { blocks := [], defaultBlk := some [] }).defaultBlk.getD []

/-- The same two tied siblings in the opposite order. -/
def tieSwapped : List DynShaderConstant :=
  tieSiblings.reverse

/-- A record with `groupIndex = 5` (while only two blocks exist). -/
def orphanRecord : FlatRecord :=
  { glType := .float, name := "o", location := -1, blockIndex := 5,
    arraySize := 1, offset := 0, isRowMajor := 0 }

/-- The two-block, no-default state the orphan record is processed in. -/
def orphanState : BuildState :=
  { blocks := [[], []], defaultBlk := none }

/-- A record named `v[0]` with array-size hint 4. -/
def zeroTrimRecord : FlatRecord :=
  { glType := .float, name := "v[0]", location := -1, blockIndex := -1,
    arraySize := 4, offset := 0, isRowMajor := 0 }

/-- A record named `w` (no `[0]` suffix) with array-size hint 4. -/
def plainNameRecord : FlatRecord :=
  { glType := .float, name := "w", location := -1, blockIndex := -1,
    arraySize := 4, offset := 0, isRowMajor := 0 }

/-- A concrete leaf node (a `float x` at `reg.vec = 1`), used to
instantiate the walk lemmas. -/
def leafX : DynShaderConstant :=
  .mk "x".data 1 0
    { vtype := .varFloat, rows := 1, cols := 1, elements := 0,
      rowMajorStorage := false, typeName := "float" } []

/-- A concrete interior node named `foo`. -/
def nodeFoo : DynShaderConstant :=
  parentVarOf "foo".data 1 .varFloat 1

/-- Disassembler input for the scope-numbering property: header, one
instruction outside any function (`OpSource`), `OpFunction`, three
ordinary instructions (tag 99, no dedicated formatting), and
`OpFunctionEnd`. -/
def scopeStream : List Nat :=
  [spvMagicNumber, 1, 0, 1, 0,
   3 * 65536 + opSourceTag, 0, 110,
   1 * 65536 + opFunctionTag,
   1 * 65536 + 99, 1 * 65536 + 99, 1 * 65536 + 99,
   1 * 65536 + opFunctionEndTag]

/-- Disassembler input for the forward-reference property: an
`OpEntryPoint` referencing id 7 appears before the `OpName` that names
id 7 `"main"` (the word `1852399981` encodes the bytes `m a i n`). -/
def fwdRefStream : List Nat :=
  [spvMagicNumber, 1, 0, 8, 0,
   3 * 65536 + opEntryPointTag, 4, 7,
   4 * 65536 + opNameTag, 7, 1852399981, 0]

/-- A stream whose first instruction header word is `0`: word count 0. -/
def corruptStream : List Nat :=
  [spvMagicNumber, 1, 0, 1, 0, 0]

/-- A stream whose first word is not the magic number. -/
def badMagicStream : List Nat :=
  [0, 1, 0, 8, 0, 3 * 65536 + opEntryPointTag, 4, 7]

/-! ## The claims -/

/-- C1: a name segment carrying array index `k` on base name `B` is
handled by find-or-create — the walk-step equation (first conjunct) shows
the segment becomes a `findOrCreate` of an interior node with
`elements = k+1`, whose continuation is the identity (no member detail, no
leaf) exactly when `k > 0`; an existing node named `B` gets
`elements = max(existing, k+1)` (second conjunct, with
`pv.descr.elements = k+1`); an absent one is created with `elements = k+1`
(third conjunct).  Consequently `foo[0].x`/`foo[2].x` produce exactly one
`foo` node with `elements = 3` and single member `x`, and
`bar[0].a`/`bar[1].a`/`bar[1].b` produce a `bar` node whose members
contain `a` but not `b` (fourth and fifth conjuncts). -/
theorem c1_array_index_merge :
    (∀ (var : DynShaderConstant) (fuel : Nat) (base ds rest : List Char)
        (siblings : List DynShaderConstant),
        (∀ c ∈ base, isSep c = false) → (∀ c ∈ ds, '0' ≤ c ∧ c ≤ '9') →
        walkInsertAux var (fuel + 1)
            (base ++ '[' :: (ds ++ ']' :: '.' :: rest)) siblings =
          (if digitsVal ds 0 > 0 then
            findOrCreate
              (parentVarOf base var.regVec var.descr.vtype (digitsVal ds 0 + 1))
              id siblings
          else
            findOrCreate
              (parentVarOf base var.regVec var.descr.vtype (digitsVal ds 0 + 1))
              (walkInsertAux var fuel rest) siblings)) ∧
    (∀ (pv : DynShaderConstant)
        (f : List DynShaderConstant → List DynShaderConstant)
        (siblings : List DynShaderConstant) (v : DynShaderConstant),
        lookupName siblings pv.name = some v →
        lookupName (findOrCreate pv f siblings) pv.name =
          some (.mk v.name (min v.regVec pv.regVec) v.regComp
            { v.descr with elements := max v.descr.elements pv.descr.elements }
            (f v.members))) ∧
    (∀ (pv : DynShaderConstant)
        (f : List DynShaderConstant → List DynShaderConstant)
        (siblings : List DynShaderConstant),
        lookupName siblings pv.name = none →
        findOrCreate pv f siblings =
          siblings ++ [.mk pv.name pv.regVec pv.regComp pv.descr (f [])]) ∧
    ((buildAndSort fooRecords 0 true).defaultBlk.getD []).map
        (fun v => (v.name, v.elements, v.members.map DynShaderConstant.name)) =
      [("foo".data, 3, ["x".data])] ∧
    ((buildAndSort barRecords 0 true).defaultBlk.getD []).map
        (fun v => (v.name, v.elements, v.members.map DynShaderConstant.name)) =
      [("bar".data, 2, ["a".data])] := by
  refine ⟨?_, ?_, ?_, by decide, by decide⟩
  · intro var fuel base ds rest siblings hb hds
    exact walkInsertAux_array_step var fuel base ds rest siblings hb hds
  · intro pv f siblings v h
    exact lookupName_findOrCreate_of_lookup_some pv f siblings v h
  · intro pv f siblings h
    exact findOrCreate_of_lookup_none pv f siblings h

theorem c1_array_index_merge_witness :
    (walkInsertAux leafX (0 + 1)
        ("foo".data ++ '[' :: (['2'] ++ ']' :: '.' :: "x".data)) [] =
      (if digitsVal ['2'] 0 > 0 then
        findOrCreate
          (parentVarOf "foo".data leafX.regVec leafX.descr.vtype
            (digitsVal ['2'] 0 + 1)) id []
      else
        findOrCreate
          (parentVarOf "foo".data leafX.regVec leafX.descr.vtype
            (digitsVal ['2'] 0 + 1)) (walkInsertAux leafX 0 "x".data) [])) ∧
    lookupName (findOrCreate nodeFoo id [nodeFoo]) nodeFoo.name =
      some (.mk nodeFoo.name (min nodeFoo.regVec nodeFoo.regVec)
        nodeFoo.regComp
        { nodeFoo.descr with
            elements := max nodeFoo.descr.elements nodeFoo.descr.elements }
        (id nodeFoo.members)) ∧
    findOrCreate nodeFoo id [] =
      [] ++ [.mk nodeFoo.name nodeFoo.regVec nodeFoo.regComp nodeFoo.descr
        (id [])] :=
  ⟨c1_array_index_merge.1 leafX 0 "foo".data ['2'] "x".data [] (by decide)
      (by decide),
   c1_array_index_merge.2.1 nodeFoo id [nodeFoo] nodeFoo rfl,
   c1_array_index_merge.2.2.1 nodeFoo id [] rfl⟩

/-- C2 counterexample: the claim says a name ending in `[0]` has the
suffix stripped and `elements` forced to `0`, and that the hint is
otherwise used as-is.  The code does the opposite (lines 627–633): for
`v[0]` with hint 4 the suffix is stripped and the clamped hint 4 is
*kept*; for `w` with hint 4 (no `[0]` suffix) `elements` is *forced to
0*. -/
theorem c2_counterexample :
    ((prepareLeaf zeroTrimRecord).map (fun p => (p.1, p.2.elements)) =
        some ("v".data, 4) ∧
      ¬ ((prepareLeaf zeroTrimRecord).map (fun p => (p.1, p.2.elements)) =
        some ("v".data, 0))) ∧
    ((prepareLeaf plainNameRecord).map (fun p => (p.1, p.2.elements)) =
        some ("w".data, 0) ∧
      ¬ ((prepareLeaf plainNameRecord).map (fun p => (p.1, p.2.elements)) =
        some ("w".data, 4))) := by
  decide

/-- C2 (amended): for every record accepted by the type classifier whose
name has at least three characters (shorter names make the source read
out of bounds, see C10), `elements` is first set to the clamped hint
`max(1, hint)`; if the name ends in a literal `[0]`, that suffix is
stripped and the clamped hint is retained; otherwise the name is kept and
`elements` is forced to `0`. -/
theorem c2_elements_rule (r : FlatRecord) (vt : VarType)
    (hc : classifyVarType r.glType = some vt) (hl : 3 ≤ r.name.data.length) :
    (prepareLeaf r).map (fun p => (p.1, p.2.elements)) =
      some (if r.name.data.drop (r.name.data.length - 3) = ['[', '0', ']'] then
        (r.name.data.take (r.name.data.length - 3), (max 1 r.arraySize).toNat)
      else
        (r.name.data, 0)) := by
  rw [prepareLeaf, hc]
  dsimp only
  rw [trimNameZero]
  by_cases hz : r.name.data.drop (r.name.data.length - 3) = ['[', '0', ']']
  · rw [if_pos ⟨hl, hz⟩, if_pos hz]
    rfl
  · rw [if_neg (fun hcon => hz hcon.2), if_neg hz]
    rfl

theorem c2_elements_rule_witness :
    (prepareLeaf zeroTrimRecord).map (fun p => (p.1, p.2.elements)) =
      some (if zeroTrimRecord.name.data.drop
          (zeroTrimRecord.name.data.length - 3) = ['[', '0', ']'] then
        (zeroTrimRecord.name.data.take (zeroTrimRecord.name.data.length - 3),
          (max 1 zeroTrimRecord.arraySize).toNat)
      else
        (zeroTrimRecord.name.data, 0)) :=
  c2_elements_rule zeroTrimRecord .varFloat (by decide) (by decide)

/-- C3 counterexample: the claim asserts that, after the sort, ties are
left stable on discovery order.  `tieSiblings` is a sibling list the
build actually produces (records `t1`, `t2`, both with storage
order `(0,0)`), in discovery order `t1, t2`; the reversed list `t2, t1`
satisfies everything the program's `std::sort` call (lines 72–78)
guarantees about its result — `stdSortSpec`: a permutation whose
consecutive elements are ordered by the comparator — so the source does
not establish any tie order, let alone discovery order (and real
`std::sort` implementations are not stable). -/
theorem c3_counterexample :
    namesOf tieSiblings = ["t1".data, "t2".data] ∧
    tieSiblings.map (fun v => (v.regVec, v.regComp)) = [(0, 0), (0, 0)] ∧
    stdSortSpec tieSiblings tieSwapped ∧
    namesOf tieSwapped ≠ namesOf tieSiblings := by
  exact ⟨by decide, by decide, ⟨List.reverse_perm tieSiblings, by decide⟩, by decide⟩

/-- C3 (amended): after the build, every sibling list — the top one and
every nested member list, recursively — is sorted by storage order
ascending; the relative order of elements with equal storage order is
unspecified (`std::sort` gives no stability guarantee).  First conjunct:
the executable refinement satisfies the full `std::sort` contract
(permutation, comparator-ordered).  Second conjunct: every sibling list
it produces, nested members included, is ordered by `regLe`.  Third
conjunct: `regLe` is exactly the ordering the strict `offset_sort`
comparator induces between consecutive `std::sort` output elements.
Fourth conjunct: on the tie-free example built from storage orders
3, 1, 2, *every* list satisfying the `std::sort` contract — whichever
implementation runs — is ordered `c1, c2, c3`.  Fifth conjunct: the
executable pipeline computes exactly that. -/
theorem c3_recursive_storage_sort :
    (∀ l : List DynShaderConstant, stdSortSpec (mapSortNode l) (sortForest l)) ∧
    (∀ l : List DynShaderConstant, forestSortedB (sortForest l) = true) ∧
    (∀ a b : DynShaderConstant, regLe a b ↔ offsetLess b a = false) ∧
    (∀ l : List DynShaderConstant, stdSortSpec (mapSortNode preSortOutput) l →
        l.map (fun v => (v.name, v.regVec)) =
          [("c1".data, 1), ("c2".data, 2), ("c3".data, 3)]) ∧
    ((buildAndSort sortRecords 0 true).defaultBlk.getD []).map
        (fun v => (v.name, v.regVec)) =
      [("c1".data, 1), ("c2".data, 2), ("c3".data, 3)] := by
  refine ⟨sortForest_stdSortSpec, forestSortedB_sortForest,
    regLe_iff_not_offsetLess, ?_, by decide⟩
  intro l h
  have hnd : ((mapSortNode preSortOutput).map
      (fun v => (v.regVec, v.regComp))).Nodup := by decide
  have heq : sortForest preSortOutput = l :=
    stdSortSpec_unique (sortForest preSortOutput) (mapSortNode preSortOutput) l
      (keyInj_of_map_nodup (mapSortNode preSortOutput) hnd)
      (sortForest_stdSortSpec preSortOutput) h
  rw [← heq]
  decide

theorem c3_recursive_storage_sort_witness :
    (sortForest preSortOutput).map (fun v => (v.name, v.regVec)) =
      [("c1".data, 1), ("c2".data, 2), ("c3".data, 3)] :=
  c3_recursive_storage_sort.2.2.2.1 (sortForest preSortOutput)
    (c3_recursive_storage_sort.1 preSortOutput)

/-- C4: a record whose block index is present but at or beyond the number
of blocks, processed with no default (ungrouped) list, is dropped: the
state is unchanged, the `RDCWARN` of line 644 fires (for records the type
classifier accepted), and the remaining records are still processed. -/
theorem c4_orphan_record_dropped (r : FlatRecord) (st : BuildState)
    (hdef : st.defaultBlk = none)
    (hrange : (st.blocks.length : Int) ≤ r.blockIndex) :
    processRecord st r = st ∧
    ((classifyVarType r.glType).isSome → orphanWarned r st = true) ∧
    (∀ recs : List FlatRecord, buildTree (r :: recs) st = buildTree recs st) := by
  have hsel : selectParent r.blockIndex st.blocks.length st.defaultBlk.isSome =
      none := by
    rw [selectParent, hdef]
    rw [if_neg (by omega), if_neg (by simp)]
  have hproc : processRecord st r = st := by
    rw [processRecord]
    cases hp : prepareLeaf r with
    | none => rfl
    | some p => rw [hsel]
  refine ⟨hproc, ?_, ?_⟩
  · intro hcl
    rw [orphanWarned, hsel]
    simp [hcl]
  · intro recs
    rw [buildTree, List.foldl_cons, hproc]
    rfl

theorem c4_orphan_record_dropped_witness :
    processRecord orphanState orphanRecord = orphanState ∧
    orphanWarned orphanRecord orphanState = true ∧
    buildTree [orphanRecord, floatRec "g" 0] orphanState =
      buildTree [floatRec "g" 0] orphanState := by
  have h := c4_orphan_record_dropped orphanRecord orphanState rfl (by decide)
  exact ⟨h.1, h.2.1 (by decide), h.2.2 [floatRec "g" 0]⟩

/-- C5 counterexample: the claim asserts name uniqueness of every sibling
list for *every* input sequence, but the leaf insertion at line 752 is an
unconditional `push_back` — two records with the same flat name `x`
produce two siblings named `x`. -/
theorem c5_counterexample :
    namesOf ((buildAndSort dupRecords 0 true).defaultBlk.getD []) =
      ["x".data, "x".data] ∧
    ¬ (forestUniqueB ((buildAndSort dupRecords 0 true).defaultBlk.getD []) =
      true) := by
  decide

/-- C5 (amended): the interior find-or-create step never duplicates a
name — when the base name is already present the sibling names are
unchanged (first conjunct), a new name is appended only when absent
(second conjunct), so the step preserves name uniqueness (third
conjunct), and repeated array indices collapse into one node whose
`elements` is the running maximum (fourth conjunct and the concrete
`foo` collapse, fifth conjunct); but the final leaf insertion appends
unconditionally, so sibling-name uniqueness can be violated by records
whose leaf name repeats an existing sibling name (see the
counterexample). -/
theorem c5_interior_names_unique :
    (∀ (pv : DynShaderConstant)
        (f : List DynShaderConstant → List DynShaderConstant)
        (siblings : List DynShaderConstant),
        (lookupName siblings pv.name).isSome →
        namesOf (findOrCreate pv f siblings) = namesOf siblings) ∧
    (∀ (pv : DynShaderConstant)
        (f : List DynShaderConstant → List DynShaderConstant)
        (siblings : List DynShaderConstant),
        lookupName siblings pv.name = none →
        namesOf (findOrCreate pv f siblings) = namesOf siblings ++ [pv.name]) ∧
    (∀ (pv : DynShaderConstant)
        (f : List DynShaderConstant → List DynShaderConstant)
        (siblings : List DynShaderConstant),
        (namesOf siblings).Nodup →
        (namesOf (findOrCreate pv f siblings)).Nodup) ∧
    (∀ (pv : DynShaderConstant)
        (f : List DynShaderConstant → List DynShaderConstant)
        (siblings : List DynShaderConstant) (v : DynShaderConstant),
        lookupName siblings pv.name = some v →
        (lookupName (findOrCreate pv f siblings) pv.name).map
            DynShaderConstant.elements =
          some (max v.elements pv.elements)) ∧
    ((buildAndSort fooRecords 0 true).defaultBlk.getD []).map
        (fun v => (v.name, v.elements)) = [("foo".data, 3)] := by
  have hsome : ∀ (pv : DynShaderConstant)
      (f : List DynShaderConstant → List DynShaderConstant)
      (siblings : List DynShaderConstant),
      (lookupName siblings pv.name).isSome →
      namesOf (findOrCreate pv f siblings) = namesOf siblings := by
    intro pv f siblings h
    obtain ⟨v, hv⟩ := Option.isSome_iff_exists.mp h
    exact namesOf_findOrCreate_of_lookup_some pv f siblings v hv
  refine ⟨hsome, ?_, ?_, ?_, by decide⟩
  · intro pv f siblings h
    exact namesOf_findOrCreate_of_lookup_none pv f siblings h
  · intro pv f siblings hnd
    cases hl : lookupName siblings pv.name with
    | some v =>
      rw [hsome pv f siblings (by rw [hl]; rfl)]
      exact hnd
    | none =>
      rw [namesOf_findOrCreate_of_lookup_none pv f siblings hl]
      have hnotin : pv.name ∉ namesOf siblings := by
        rw [lookupName, List.find?_eq_none] at hl
        intro hmem
        obtain ⟨w, hw, hwn⟩ := List.mem_map.mp hmem
        exact hl w hw (by simp [hwn])
      simp [List.nodup_append, hnd, hnotin]
  · intro pv f siblings v h
    rw [lookupName_findOrCreate_of_lookup_some pv f siblings v h]
    rfl

theorem c5_interior_names_unique_witness :
    namesOf (findOrCreate nodeFoo id [nodeFoo]) = namesOf [nodeFoo] ∧
    namesOf (findOrCreate nodeFoo id []) = namesOf [] ++ [nodeFoo.name] ∧
    (namesOf (findOrCreate nodeFoo id [])).Nodup ∧
    (lookupName (findOrCreate nodeFoo id [nodeFoo]) nodeFoo.name).map
        DynShaderConstant.elements =
      some (max nodeFoo.elements nodeFoo.elements) :=
  ⟨c5_interior_names_unique.1 nodeFoo id [nodeFoo] rfl,
   c5_interior_names_unique.2.1 nodeFoo id [] rfl,
   c5_interior_names_unique.2.2.1 nodeFoo id [] List.nodup_nil,
   c5_interior_names_unique.2.2.2.1 nodeFoo id [nodeFoo] nodeFoo rfl⟩

/-- C6: a stream whose first word is not the magic number produces exactly
one output line — the diagnostic carrying the mismatched value
(lines 2120–2124) — and no instruction of the stream is decoded. -/
theorem c6_magic_mismatch_short_circuit (spirv : List Nat)
    (_hne : spirv ≠ []) (hm : spirv.getD 0 0 ≠ spvMagicNumber) :
    disassemble spirv = [.magicMismatch (spirv.getD 0 0)] ∧
    instrIndices (disassemble spirv) = [] := by
  have hd : disassemble spirv = [.magicMismatch (spirv.getD 0 0)] := by
    rw [disassemble, if_pos hm]
  exact ⟨hd, by rw [hd]; rfl⟩

theorem c6_magic_mismatch_short_circuit_witness :
    badMagicStream ≠ [] ∧
    disassemble badMagicStream = [.magicMismatch (badMagicStream.getD 0 0)] ∧
    instrIndices (disassemble badMagicStream) = [] := by
  have h := c6_magic_mismatch_short_circuit badMagicStream (by decide) (by decide)
  exact ⟨by decide, h.1, h.2⟩

/-- C7 counterexample: the claim predicts sequence numbers 0, 1, 2 for the
three ordinary instructions of `scopeStream`.  In the code the `infunc`
flag is set *before* the `OpFunction` line is emitted (lines 2195–2196,
2208–2212), so the scope-begin line itself takes index 0 and the three
ordinary instructions take 1, 2, 3 — the first of them (position 2 among
the instruction lines) does not carry 0. -/
theorem c7_counterexample :
    instrIndices (disassemble scopeStream) =
      [none, some 0, some 1, some 2, some 3, none] ∧
    (instrIndices (disassemble scopeStream))[2]? ≠ some (some 0) := by
  decide

/-- C7 (amended): lines emitted while the scope flag is true — which
includes the scope-begin line itself, since the flag is toggled before the
line is emitted — carry indices drawn consecutively from a single counter
that starts at 0 for the whole disassembly and is never reset (first
conjunct: the indexed lines of any disassembly read 0, 1, 2, …); lines
outside any scope, the scope-end line included, carry none; on the example
stream the scope-begin line gets 0 and the three ordinary instructions get
1, 2, 3. -/
theorem c7_scope_numbering :
    (∀ spirv : List Nat, ∃ n,
        indexedIndices (disassemble spirv) = List.range n) ∧
    instrIndices (disassemble scopeStream) =
      [none, some 0, some 1, some 2, some 3, none] ∧
    indexedIndices (disassemble scopeStream) = [0, 1, 2, 3] := by
  refine ⟨?_, by decide, by decide⟩
  intro spirv
  by_cases hm : spirv.getD 0 0 ≠ spvMagicNumber
  · exact ⟨0, by rw [disassemble, if_pos hm]; rfl⟩
  · refine ⟨(formatPass spirv spirv.length 5
      { names := resultNamesOf spirv (spirv.getD 3 0), infunc := false,
        opidx := 0, out := [] }).opidx, ?_⟩
    rw [disassemble, if_neg hm]
    dsimp only
    rw [indexedIndices_append]
    have hheader : indexedIndices
        ([DisasmLine.versionInfo (spirv.getD 1 0) (spirv.getD 2 0),
          DisasmLine.idBoundInfo (spirv.getD 3 0)] ++
          (if spirv.getD 4 0 ≠ 0 then [DisasmLine.reservedWarning] else [])) =
        [] := by
      by_cases hr : spirv.getD 4 0 ≠ 0 <;> simp [hr, indexedIndices]
    rw [hheader]
    have h := formatPass_indexed spirv spirv.length 5
      { names := resultNamesOf spirv (spirv.getD 3 0), infunc := false,
        opidx := 0, out := [] } rfl
    simpa using h

/-- C8: name resolution is completed before formatting.  The placeholder
fill leaves every recorded (non-empty) name alone and replaces every
unrecorded one with `"<id>"` (first two conjuncts); on the example stream
the `OpEntryPoint` referencing id 7 is rendered with the name `"main"`
assigned by an `OpName` that appears only *later* in the stream, because
pass 1 runs to completion first (third conjunct), and after pass 1 every
id without a recorded name carries its placeholder (fourth conjunct). -/
theorem c8_names_resolved_before_format :
    (∀ (names : List String) (i : Nat), names[i]? = some "" →
        (fillNames names)[i]? = some ("<" ++ toString i ++ ">")) ∧
    (∀ (names : List String) (i : Nat) (s : String),
        names[i]? = some s → s ≠ "" → (fillNames names)[i]? = some s) ∧
    disassemble fwdRefStream =
      [.versionInfo 1 0, .idBoundInfo 8,
       .instr none opEntryPointTag (.entryPoint "main" 4)] ∧
    resultNamesOf fwdRefStream 8 =
      ["<0>", "<1>", "<2>", "<3>", "<4>", "<5>", "<6>", "main"] := by
  refine ⟨?_, ?_, by decide, by decide⟩
  · intro names i h
    rw [fillNames_getElem, h]
    rfl
  · intro names i s h hs
    rw [fillNames_getElem, h]
    simp [hs]

theorem c8_names_resolved_before_format_witness :
    (fillNames ["", "a"])[0]? = some ("<" ++ toString 0 ++ ">") ∧
    (fillNames ["", "a"])[1]? = some "a" :=
  ⟨c8_names_resolved_before_format.1 ["", "a"] 0 rfl,
   c8_names_resolved_before_format.2.1 ["", "a"] 1 "a" rfl (by decide)⟩

/-- C9: the scan loops of both passes advance by `it += WordCount`
(lines 2160, 2218) with no zero/overflow check.  On `corruptStream`, whose
instruction at word 5 has word count 0, the scan position never moves
while the loop guard `it < spirv.size()` stays true — the source loops
forever instead of failing on the corrupt stream as the claim requires. -/
theorem c9_zero_word_count_loops :
    5 < corruptStream.length ∧
    instrWordCount (corruptStream.getD 5 0) = 0 ∧
    (∀ n : Nat, (scanAdvance corruptStream)^[n] 5 = 5) := by
  refine ⟨by decide, by decide, ?_⟩
  intro n
  induction n with
  | zero => rfl
  | succ n ih =>
    rw [Function.iterate_succ_apply', ih]
    decide

/-- C10: the trailing-`[0]` check at line 630 reads `var.name[c-3]`,
`var.name[c-2]`, `var.name[c-1]` with `c` the name length and no bounds
guard; for the one-character name `"x"` (`c = 1`) the first read is at
position `-2` — out of bounds.  The reads are in bounds exactly for names
of length at least 3. -/
theorem c10_trim_reads_out_of_bounds :
    trimReadPositions 1 = [-2, -1, 0] ∧
    ¬ trimReadsInBounds 1 ∧
    (∀ n : Nat, trimReadsInBounds n ↔ 3 ≤ n) := by
  refine ⟨by decide, by decide, ?_⟩
  intro n
  unfold trimReadsInBounds trimReadPositions
  constructor
  · intro h
    have h3 := h ((n : Int) - 3) (by simp)
    omega
  · intro h3 i hi
    simp only [List.mem_cons, List.not_mem_nil, or_false] at hi
    rcases hi with rfl | rfl | rfl <;> omega

end GLRefl
